import Mathlib

/-!
# Verification of the `data-sanitize` CSV normalization pipeline

Shallow embedding of `src/data-sanitize.py` (a Python 2 program) and proofs
about it.  Conventions:

* A Python 2 byte string (`str`) is a `ByteStr := List Nat` (byte values).
* A Python 2 unicode string (`unicode`) is a `UStr := List Nat` (code points).
  `List Nat` is used instead of Lean `String` because Python 2 unicode strings
  may contain lone surrogates (U+D800–U+DFFF), which Lean `Char` cannot hold.
* Exceptions are modelled with `Except` / `Option`; an uncaught exception in
  the row loop is modelled by the `crashed` field of `RunResult`.
-/

instance {ε α : Type} [DecidableEq ε] [DecidableEq α] : DecidableEq (Except ε α) :=
  fun x y =>
    match x, y with
    | .ok a, .ok b =>
      if h : a = b then isTrue (by rw [h]) else isFalse (fun hh => h (Except.ok.inj hh))
    | .error a, .error b =>
      if h : a = b then isTrue (by rw [h]) else isFalse (fun hh => h (Except.error.inj hh))
    | .ok _, .error _ => isFalse (fun hh => Except.noConfusion hh)
    | .error _, .ok _ => isFalse (fun hh => Except.noConfusion hh)

/-- A Python 2 byte string: a list of byte values. -/
abbrev ByteStr := List Nat

/-- A Python 2 unicode string: a list of Unicode code points. -/
abbrev UStr := List Nat

/-- Code points of an ASCII Lean string literal, used to write concrete
`UStr` values readably. -/
def strToU (s : String) : UStr := s.data.map Char.toNat

/-- Python exceptions that can escape the row-processing code. -/
inductive PyExn
  | indexError
  | valueError
  | unicodeDecodeError
  | overflowError
deriving DecidableEq

/-- Is `b` a UTF-8 continuation byte (`0x80–0xBF`)? -/
def contB (b : Nat) : Bool := decide (0x80 ≤ b ∧ b < 0xC0)

/-- Admissible first continuation byte of a three-byte sequence led by `b`.
`0xE0` forbids overlong encodings (`0xA0–0xBF` only).  Python 2's UTF-8 codec
accepts surrogate code points, so `0xED` is *not* restricted to `0x80–0x9F`. -/
def cont3First (b b1 : Nat) : Bool :=
  if b = 0xE0 then decide (0xA0 ≤ b1 ∧ b1 < 0xC0) else contB b1

/-- Admissible first continuation byte of a four-byte sequence led by `b`:
`0xF0` forbids overlong encodings, `0xF4` enforces the `U+10FFFF` cap. -/
def cont4First (b b1 : Nat) : Bool :=
  if b = 0xF0 then decide (0x90 ≤ b1 ∧ b1 < 0xC0)
  else if b = 0xF4 then decide (0x80 ≤ b1 ∧ b1 < 0x90)
  else contB b1

/-- Decode one UTF-8 sequence whose first byte is `b` and whose following
bytes are `bs`.  Returns `.ok (codePoint, bytesConsumed, remainingBytes)` or
`.error spanLength` where `spanLength` is the length of the minimal invalid
byte span starting at `b` (the maximal valid subpart is consumed by the span).
This models the byte-level acceptance of Python 2's `'utf8'` codec: overlong
encodings and code points above `U+10FFFF` are rejected, surrogates are
accepted. -/
def decode1 (b : Nat) (bs : List Nat) : Except Nat (Nat × Nat × List Nat) :=
  if b < 0x80 then .ok (b, 1, bs)
  else if b < 0xC2 then .error 1
  else if b < 0xE0 then
    if contB (bs.getD 0 0xFFFF) then
      .ok ((b - 0xC0) * 0x40 + (bs.getD 0 0xFFFF - 0x80), 2, bs.drop 1)
    else .error 1
  else if b < 0xF0 then
    if cont3First b (bs.getD 0 0xFFFF) then
      if contB (bs.getD 1 0xFFFF) then
        .ok (((b - 0xE0) * 0x40 + (bs.getD 0 0xFFFF - 0x80)) * 0x40
              + (bs.getD 1 0xFFFF - 0x80), 3, bs.drop 2)
      else .error 2
    else .error 1
  else if b < 0xF5 then
    if cont4First b (bs.getD 0 0xFFFF) then
      if contB (bs.getD 1 0xFFFF) then
        if contB (bs.getD 2 0xFFFF) then
          .ok ((((b - 0xF0) * 0x40 + (bs.getD 0 0xFFFF - 0x80)) * 0x40
                + (bs.getD 1 0xFFFF - 0x80)) * 0x40 + (bs.getD 2 0xFFFF - 0x80), 4, bs.drop 3)
        else .error 3
      else .error 2
    else .error 1
  else .error 1

/-- Decode a byte list as UTF-8, tracking the absolute position `pos` of the
first byte.  Returns the code points, or the absolute `(start, end)` span of
the first invalid byte range (the slice indices used by Python's
`UnicodeDecodeError`).  The branch structure mirrors `decode1`; it is written
with nested patterns so that the recursion is structural (see
`decodeLoop_eq` for the packaged step equation). -/
def decodeLoop : List Nat → Nat → Except (Nat × Nat) UStr
  | [], _ => .ok []
  | b :: tl, pos =>
    if b < 0x80 then (decodeLoop tl (pos + 1)).map (b :: ·)
    else if b < 0xC2 then .error (pos, pos + 1)
    else if b < 0xE0 then
      match tl with
      | b1 :: bs1 =>
        if contB b1 then
          (decodeLoop bs1 (pos + 2)).map (((b - 0xC0) * 0x40 + (b1 - 0x80)) :: ·)
        else .error (pos, pos + 1)
      | [] => .error (pos, pos + 1)
    else if b < 0xF0 then
      match tl with
      | b1 :: bs1 =>
        if cont3First b b1 then
          match bs1 with
          | b2 :: bs2 =>
            if contB b2 then
              (decodeLoop bs2 (pos + 3)).map
                ((((b - 0xE0) * 0x40 + (b1 - 0x80)) * 0x40 + (b2 - 0x80)) :: ·)
            else .error (pos, pos + 2)
          | [] => .error (pos, pos + 2)
        else .error (pos, pos + 1)
      | [] => .error (pos, pos + 1)
    else if b < 0xF5 then
      match tl with
      | b1 :: bs1 =>
        if cont4First b b1 then
          match bs1 with
          | b2 :: bs2 =>
            if contB b2 then
              match bs2 with
              | b3 :: bs3 =>
                if contB b3 then
                  (decodeLoop bs3 (pos + 4)).map
                    (((((b - 0xF0) * 0x40 + (b1 - 0x80)) * 0x40 + (b2 - 0x80)) * 0x40
                        + (b3 - 0x80)) :: ·)
                else .error (pos, pos + 3)
              | [] => .error (pos, pos + 3)
            else .error (pos, pos + 2)
          | [] => .error (pos, pos + 2)
        else .error (pos, pos + 1)
      | [] => .error (pos, pos + 1)
    else .error (pos, pos + 1)

/-- The sentinel byte used for out-of-range `getD` reads is never a valid
continuation byte. -/
theorem contB_sentinel : contB 0xFFFF = false := rfl

theorem cont3First_sentinel (b : Nat) : cont3First b 0xFFFF = false := by
  unfold cont3First; split_ifs <;> rfl

theorem cont4First_sentinel (b : Nat) : cont4First b 0xFFFF = false := by
  unfold cont4First; split_ifs <;> rfl

set_option maxHeartbeats 1600000 in
/-- `decodeLoop` steps exactly as `decode1` prescribes. -/
theorem decodeLoop_eq (b : Nat) (tl : List Nat) (pos : Nat) :
    decodeLoop (b :: tl) pos =
      match decode1 b tl with
      | .error len => .error (pos, pos + len)
      | .ok (c, k, rest) => (decodeLoop rest (pos + k)).map (c :: ·) := by
  rcases tl with _ | ⟨b1, _ | ⟨b2, _ | ⟨b3, bs3⟩⟩⟩ <;>
    (conv_lhs => rw [decodeLoop]) <;>
    simp only [decode1, List.getD_cons_zero, List.getD_cons_succ, List.getD_nil,
      List.drop_succ_cons, List.drop_zero, List.drop_nil, contB_sentinel,
      cont3First_sentinel, cont4First_sentinel] <;>
    split_ifs <;> simp_all

/-- `csv_element.decode('utf8')` — Python 2 UTF-8 decoding of a byte string,
returning the text or the `(e.start, e.end)` span of the first invalid bytes. -/
def decodeUtf8 (bs : ByteStr) : Except (Nat × Nat) UStr := decodeLoop bs 0

/-- UTF-8 encoding of one code point (`c < 0x110000`; Python 2 also encodes
surrogates this way). -/
def utf8EncodeChar (c : Nat) : List Nat :=
  if c < 0x80 then [c]
  else if c < 0x800 then [0xC0 + c / 0x40, 0x80 + c % 0x40]
  else if c < 0x10000 then
    [0xE0 + c / 0x1000, 0x80 + (c / 0x40) % 0x40, 0x80 + c % 0x40]
  else
    [0xF0 + c / 0x40000, 0x80 + (c / 0x1000) % 0x40, 0x80 + (c / 0x40) % 0x40,
     0x80 + c % 0x40]

/-- UTF-8 encoding of a unicode string. -/
def utf8Encode : UStr → ByteStr
  | [] => []
  | c :: cs => utf8EncodeChar c ++ utf8Encode cs

/-- Bytes of an ASCII Lean string literal. -/
def strToB (s : String) : ByteStr := utf8Encode (strToU s)

/-- One element of `sanitize_unicode`'s loop body (`data-sanitize.py`
lines 43–48): try `csv_element.decode('utf8')`; on a `UnicodeDecodeError e`,
build `csv_element[:e.start].decode('utf8') + u'�' +
csv_element[e.end:].decode('utf8')`.  Each of the two decodes in the handler
can itself raise, and that exception propagates (it is not caught). -/
def sanitizeElement (bs : ByteStr) : Except PyExn UStr :=
  match decodeUtf8 bs with
  | .ok u => .ok u
  | .error (s, e) =>
    match decodeUtf8 (bs.take s), decodeUtf8 (bs.drop e) with
    | .ok u1, .ok u2 => .ok (u1 ++ 0xFFFD :: u2)
    | _, _ => .error .unicodeDecodeError

/-- `sanitize_unicode` (lines 32–49): sanitize every field of a row; an
uncaught `UnicodeDecodeError` from the handler propagates out of the loop. -/
def sanitize_unicode (row : List ByteStr) : Except PyExn (List UStr) :=
  row.mapM sanitizeElement

/-- Decoding the UTF-8 encoding of one code point consumes exactly its
encoded bytes and recovers the code point. -/
theorem decodeLoop_encodeChar (c : Nat) (hc : c < 0x110000) (rest : List Nat) (pos : Nat) :
    decodeLoop (utf8EncodeChar c ++ rest) pos =
      (decodeLoop rest (pos + (utf8EncodeChar c).length)).map (c :: ·) := by
  by_cases h1 : c < 0x80
  · have henc : utf8EncodeChar c = [c] := by unfold utf8EncodeChar; rw [if_pos h1]
    rw [henc, List.cons_append, List.nil_append, decodeLoop_eq]
    have hdec : decode1 c rest = .ok (c, 1, rest) := by unfold decode1; rw [if_pos h1]
    rw [hdec]
    rfl
  · by_cases h2 : c < 0x800
    · have henc : utf8EncodeChar c = [0xC0 + c / 0x40, 0x80 + c % 0x40] := by
        unfold utf8EncodeChar; rw [if_neg h1, if_pos h2]
      rw [henc]
      show decodeLoop ((0xC0 + c / 0x40) :: (0x80 + c % 0x40) :: rest) pos = _
      rw [decodeLoop_eq]
      have hdec : decode1 (0xC0 + c / 0x40) ((0x80 + c % 0x40) :: rest) = .ok (c, 2, rest) := by
        simp only [decode1, List.getD_cons_zero, List.drop_succ_cons, List.drop_zero]
        rw [if_neg (by omega), if_neg (by omega), if_pos (by omega),
          if_pos (by simp only [contB, decide_eq_true_eq]; omega)]
        simp only [Except.ok.injEq, Prod.mk.injEq, and_true, true_and]
        omega
      rw [hdec]
      rfl
    · by_cases h3 : c < 0x10000
      · have henc : utf8EncodeChar c =
            [0xE0 + c / 0x1000, 0x80 + c / 0x40 % 0x40, 0x80 + c % 0x40] := by
          unfold utf8EncodeChar; rw [if_neg h1, if_neg h2, if_pos h3]
        rw [henc]
        show decodeLoop
            ((0xE0 + c / 0x1000) :: (0x80 + c / 0x40 % 0x40) :: (0x80 + c % 0x40) :: rest)
            pos = _
        rw [decodeLoop_eq]
        have hfirst : cont3First (0xE0 + c / 0x1000) (0x80 + c / 0x40 % 0x40) = true := by
          unfold cont3First
          by_cases hq : c / 0x1000 = 0
          · rw [if_pos (by omega)]
            simp only [decide_eq_true_eq]
            omega
          · rw [if_neg (by omega)]
            simp only [contB, decide_eq_true_eq]
            omega
        have hdec : decode1 (0xE0 + c / 0x1000)
            ((0x80 + c / 0x40 % 0x40) :: (0x80 + c % 0x40) :: rest) = .ok (c, 3, rest) := by
          simp only [decode1, List.getD_cons_zero, List.getD_cons_succ,
            List.drop_succ_cons, List.drop_zero]
          rw [if_neg (by omega), if_neg (by omega), if_neg (by omega), if_pos (by omega),
            if_pos hfirst, if_pos (by simp only [contB, decide_eq_true_eq]; omega)]
          simp only [Except.ok.injEq, Prod.mk.injEq, and_true, true_and]
          omega
        rw [hdec]
        rfl
      · have henc : utf8EncodeChar c =
            [0xF0 + c / 0x40000, 0x80 + c / 0x1000 % 0x40, 0x80 + c / 0x40 % 0x40,
             0x80 + c % 0x40] := by
          unfold utf8EncodeChar; rw [if_neg h1, if_neg h2, if_neg h3]
        rw [henc]
        show decodeLoop
            ((0xF0 + c / 0x40000) :: (0x80 + c / 0x1000 % 0x40) :: (0x80 + c / 0x40 % 0x40)
              :: (0x80 + c % 0x40) :: rest) pos = _
        rw [decodeLoop_eq]
        have hfirst : cont4First (0xF0 + c / 0x40000) (0x80 + c / 0x1000 % 0x40) = true := by
          unfold cont4First
          by_cases hq0 : c / 0x40000 = 0
          · rw [if_pos (by omega)]
            simp only [decide_eq_true_eq]
            omega
          · by_cases hq4 : c / 0x40000 = 4
            · rw [if_neg (by omega), if_pos (by omega)]
              simp only [decide_eq_true_eq]
              omega
            · rw [if_neg (by omega), if_neg (by omega)]
              simp only [contB, decide_eq_true_eq]
              omega
        have hdec : decode1 (0xF0 + c / 0x40000)
            ((0x80 + c / 0x1000 % 0x40) :: (0x80 + c / 0x40 % 0x40) :: (0x80 + c % 0x40)
              :: rest) = .ok (c, 4, rest) := by
          simp only [decode1, List.getD_cons_zero, List.getD_cons_succ,
            List.drop_succ_cons, List.drop_zero]
          rw [if_neg (by omega), if_neg (by omega), if_neg (by omega), if_neg (by omega),
            if_pos (by omega), if_pos hfirst,
            if_pos (by simp only [contB, decide_eq_true_eq]; omega),
            if_pos (by simp only [contB, decide_eq_true_eq]; omega)]
          simp only [Except.ok.injEq, Prod.mk.injEq, and_true, true_and]
          omega
        rw [hdec]
        rfl

/-- Decoding inverts encoding on lists of admissible code points. -/
theorem decodeLoop_utf8Encode (u : UStr) (h : ∀ c ∈ u, c < 0x110000) (pos : Nat) :
    decodeLoop (utf8Encode u) pos = .ok u := by
  induction u generalizing pos with
  | nil => rfl
  | cons c cs ih =>
    have hc : c < 0x110000 := h c (List.mem_cons_self c cs)
    have hcs : ∀ x ∈ cs, x < 0x110000 := fun x hx => h x (List.mem_cons_of_mem c hx)
    show decodeLoop (utf8EncodeChar c ++ utf8Encode cs) pos = .ok (c :: cs)
    rw [decodeLoop_encodeChar c hc, ih hcs]
    rfl
set_option maxHeartbeats 1600000 in
/-- On success `decode1` consumes a determinate front of its byte input:
the remainder is a suffix, the count is the front's length plus one, and the
result does not depend on bytes beyond that front. -/
theorem decode1_ok_extend (b : Nat) (tl : List Nat) (c k : Nat) (rest : List Nat)
    (h : decode1 b tl = .ok (c, k, rest)) :
    ∃ front : List Nat, tl = front ++ rest ∧ k = front.length + 1 ∧
      ∀ r2 : List Nat, decode1 b (front ++ r2) = .ok (c, k, r2) := by
  rcases tl with _ | ⟨t0, _ | ⟨t1, _ | ⟨t2, tl3⟩⟩⟩ <;>
    simp only [decode1, List.getD_cons_zero, List.getD_cons_succ, List.getD_nil,
      List.drop_succ_cons, List.drop_zero, List.drop_nil, contB_sentinel,
      cont3First_sentinel, cont4First_sentinel, Bool.false_eq_true, if_false] at h <;>
    split_ifs at h <;>
    simp only [Except.ok.injEq, Prod.mk.injEq, reduceCtorEq] at h <;>
    obtain ⟨rfl, rfl, rfl⟩ := h
  · refine ⟨[], by simp, rfl, fun r2 => ?_⟩
    simp only [decode1, List.nil_append]
    split_ifs
    rfl
  · refine ⟨[], by simp, rfl, fun r2 => ?_⟩
    simp only [decode1, List.nil_append]
    split_ifs
    rfl
  · refine ⟨[t0], by simp, rfl, fun r2 => ?_⟩
    simp only [decode1, List.cons_append, List.nil_append, List.getD_cons_zero,
      List.drop_succ_cons, List.drop_zero]
    split_ifs
    rfl
  · refine ⟨[], by simp, rfl, fun r2 => ?_⟩
    simp only [decode1, List.nil_append]
    split_ifs
    rfl
  · refine ⟨[t0], by simp, rfl, fun r2 => ?_⟩
    simp only [decode1, List.cons_append, List.nil_append, List.getD_cons_zero,
      List.drop_succ_cons, List.drop_zero]
    split_ifs
    rfl
  · refine ⟨[t0, t1], by simp, rfl, fun r2 => ?_⟩
    simp only [decode1, List.cons_append, List.nil_append, List.getD_cons_zero,
      List.getD_cons_succ, List.drop_succ_cons, List.drop_zero]
    split_ifs
    rfl
  · refine ⟨[], by simp, rfl, fun r2 => ?_⟩
    simp only [decode1, List.nil_append]
    split_ifs
    rfl
  · refine ⟨[t0], by simp, rfl, fun r2 => ?_⟩
    simp only [decode1, List.cons_append, List.nil_append, List.getD_cons_zero,
      List.drop_succ_cons, List.drop_zero]
    split_ifs
    rfl
  · refine ⟨[t0, t1], by simp, rfl, fun r2 => ?_⟩
    simp only [decode1, List.cons_append, List.nil_append, List.getD_cons_zero,
      List.getD_cons_succ, List.drop_succ_cons, List.drop_zero]
    split_ifs
    rfl
  · refine ⟨[t0, t1, t2], by simp, rfl, fun r2 => ?_⟩
    simp only [decode1, List.cons_append, List.nil_append, List.getD_cons_zero,
      List.getD_cons_succ, List.drop_succ_cons, List.drop_zero]
    split_ifs
    rfl

/-- Taking a front of an appended list of at least the front's length splits
off the front. -/
theorem take_append_front {α : Type} (l1 l2 : List α) (m : Nat) :
    (l1 ++ l2).take (l1.length + m) = l1 ++ l2.take m := by
  induction l1 with
  | nil => simp
  | cons a l ihl => simp [List.take_succ_cons, ihl, Nat.succ_add]

/-- If decoding fails with span `(s, e)`, everything before position `s`
decodes successfully: the reported span is the first invalid one. -/
theorem decodeLoop_error_take :
    ∀ (n : Nat) (bs : List Nat) (pos s e : Nat), bs.length ≤ n →
      decodeLoop bs pos = .error (s, e) →
      pos ≤ s ∧ ∃ u, decodeLoop (bs.take (s - pos)) pos = .ok u := by
  intro n
  induction n with
  | zero =>
    intro bs pos s e hlen herr
    have hnil : bs = [] := List.eq_nil_of_length_eq_zero (Nat.le_zero.mp hlen)
    subst hnil
    simp [decodeLoop] at herr
  | succ n ih =>
    intro bs pos s e hlen herr
    rcases bs with _ | ⟨b, tl⟩
    · simp [decodeLoop] at herr
    · rw [decodeLoop_eq] at herr
      rcases hd : decode1 b tl with len | ⟨c, k, rest⟩
      · simp only [hd] at herr
        have hs : pos = s := congrArg Prod.fst (Except.error.inj herr)
        subst hs
        refine ⟨le_refl pos, [], ?_⟩
        simp [decodeLoop]
      · simp only [hd] at herr
        rcases hrec : decodeLoop rest (pos + k) with pq | u
        · rw [hrec] at herr
          simp only [Except.map] at herr
          obtain rfl : pq = (s, e) := Except.error.inj herr
          obtain ⟨front, rfl, rfl, hext⟩ := decode1_ok_extend b tl c _ rest hd
          have hlen2 : rest.length ≤ n := by
            simp only [List.length_cons, List.length_append] at hlen
            omega
          obtain ⟨hle, u1, hok⟩ := ih rest (pos + (front.length + 1)) s e hlen2 hrec
          refine ⟨by omega, c :: u1, ?_⟩
          have h1 : s - pos = front.length + (s - pos - (front.length + 1)) + 1 := by omega
          rw [h1, List.take_succ_cons, take_append_front, decodeLoop_eq]
          simp only [hext (rest.take (s - pos - (front.length + 1)))]
          rw [show s - pos - (front.length + 1) = s - (pos + (front.length + 1)) from by omega,
            hok]
          rfl
        · rw [hrec] at herr
          simp [Except.map] at herr

/-- The span reported by a decode failure starts after a decodable front. -/
theorem decodeUtf8_error_take (bs : ByteStr) (s e : Nat)
    (h : decodeUtf8 bs = .error (s, e)) : ∃ u, decodeUtf8 (bs.take s) = .ok u := by
  obtain ⟨-, u, hu⟩ := decodeLoop_error_take bs.length bs 0 s e (le_refl _) h
  exact ⟨u, by simpa using hu⟩

/-- Claim C10: for every input field that is already entirely valid text,
the Encoding Sanitizer returns it unchanged — it is the identity on valid
input (here: on the UTF-8 encoding of any sequence of code points that
Python 2 can decode, i.e. all code points below U+110000). -/
theorem c10_sanitizer_identity_on_valid (u : UStr) (h : ∀ c ∈ u, c < 0x110000) :
    sanitizeElement (utf8Encode u) = .ok u := by
  unfold sanitizeElement decodeUtf8
  rw [decodeLoop_utf8Encode u h 0]

/-- Witness for C10 at a concrete non-ASCII field. -/
theorem c10_sanitizer_identity_on_valid_witness :
    (∀ c ∈ strToU "héllo wörld", c < 0x110000) ∧
      sanitizeElement (utf8Encode (strToU "héllo wörld")) = .ok (strToU "héllo wörld") :=
  ⟨by decide, c10_sanitizer_identity_on_valid (strToU "héllo wörld") (by decide)⟩

/-- Claim C2 is false as stated: a field with two separate invalid byte
spans makes the Encoding Sanitizer raise an uncaught UnicodeDecodeError
(the handler re-decodes the remainder after the first span without guarding
it), instead of replacing each span and producing valid text. -/
theorem c2_counterexample :
    sanitizeElement [0x41, 0xFF, 0x42, 0xFF, 0x43] = .error .unicodeDecodeError := by
  decide

/-- Claim C2 amended: the sanitizer replaces only the FIRST minimal invalid
byte span with U+FFFD.  If the input is valid it is returned unchanged; if
the remainder after the first invalid span decodes cleanly, the result is
the decoded front, one replacement character, and the decoded remainder;
if the remainder contains a further invalid span, the sanitizer raises an
uncaught decode error instead of producing output. -/
theorem c2_amended_first_span_only :
    (∀ (bs : ByteStr) (u : UStr), decodeUtf8 bs = .ok u → sanitizeElement bs = .ok u) ∧
    (∀ (bs : ByteStr) (s e : Nat) (u2 : UStr),
      decodeUtf8 bs = .error (s, e) → decodeUtf8 (bs.drop e) = .ok u2 →
      ∃ u1, decodeUtf8 (bs.take s) = .ok u1 ∧
        sanitizeElement bs = .ok (u1 ++ 0xFFFD :: u2)) ∧
    (∀ (bs : ByteStr) (s e p q : Nat),
      decodeUtf8 bs = .error (s, e) → decodeUtf8 (bs.drop e) = .error (p, q) →
      sanitizeElement bs = .error .unicodeDecodeError) := by
  refine ⟨?_, ?_, ?_⟩
  · intro bs u h
    unfold sanitizeElement
    rw [h]
  · intro bs s e u2 herr hdrop
    obtain ⟨u1, hu1⟩ := decodeUtf8_error_take bs s e herr
    refine ⟨u1, hu1, ?_⟩
    unfold sanitizeElement
    simp only [herr, hu1, hdrop]
  · intro bs s e p q herr hdrop
    unfold sanitizeElement
    simp only [herr]
    rcases h2 : decodeUtf8 (bs.take s) with pq2 | u1 <;> simp only [h2, hdrop]

/-- Witness for the amended C2 at a concrete field with one invalid byte. -/
theorem c2_amended_first_span_only_witness :
    ∃ u1, decodeUtf8 ([0x41, 0xFF, 0x42].take 1) = .ok u1 ∧
      sanitizeElement [0x41, 0xFF, 0x42] = .ok (u1 ++ 0xFFFD :: [0x42]) :=
  c2_amended_first_span_only.2.1 [0x41, 0xFF, 0x42] 1 2 [0x42] (by decide) (by decide)

/-- Characters Python treats as whitespace when stripping around int() input
(matching ASCII space, tab, newline, vertical tab, form feed, carriage
return). -/
def wsCharB (c : Nat) : Bool :=
  decide (c = 32 ∨ c = 9 ∨ c = 10 ∨ c = 11 ∨ c = 12 ∨ c = 13)

/-- Leading/trailing whitespace stripping, as int() applies to its input. -/
def pyStrip (u : UStr) : UStr :=
  ((u.dropWhile wsCharB).reverse.dropWhile wsCharB).reverse

/-- ASCII decimal digit test. -/
def isDigitB (c : Nat) : Bool := decide (48 ≤ c ∧ c ≤ 57)

/-- Value of a non-empty all-digit string. -/
def digitsVal (u : UStr) : Option Nat :=
  if u.isEmpty then none
  else if u.all isDigitB then some (u.foldl (fun a c => a * 10 + (c - 48)) 0)
  else none

/-- Python 2's int() on a unicode string (ASCII fragment): strip whitespace,
allow one optional sign, then one or more decimal digits; anything else
raises ValueError (modelled as none). -/
def pyInt (u : UStr) : Option Int :=
  if (pyStrip u).headD 0 = 43 then (digitsVal ((pyStrip u).drop 1)).map fun n => (n : Int)
  else if (pyStrip u).headD 0 = 45 then (digitsVal ((pyStrip u).drop 1)).map fun n => -(n : Int)
  else (digitsVal (pyStrip u)).map fun n => (n : Int)

/-- Python's str.split(sep) for a one-character separator: splitting never
yields an empty list ("".split(c) is ['']). -/
def splitOnChar (c : Nat) : UStr → List UStr
  | [] => [[]]
  | b :: rest =>
    if b = c then [] :: splitOnChar c rest
    else
      match splitOnChar c rest with
      | s :: ss => (b :: s) :: ss
      | [] => [[b]]

/-- Decimal digits of a natural number, with explicit fuel so the recursion
is structural (the fuel is always sufficient: see natToDec). -/
def natToDecAux : Nat → Nat → UStr
  | 0, _ => []
  | fuel + 1, n => if n < 10 then [48 + n] else natToDecAux fuel (n / 10) ++ [48 + n % 10]

/-- Decimal representation of a natural number. -/
def natToDec (n : Nat) : UStr := natToDecAux (n + 1) n

/-- The lower bound of Python's timedelta range, in milliseconds
(-999999999 days). -/
def tdLo : Int := -(999999999 * 86400000)

/-- The upper bound of Python's timedelta range, in milliseconds
(999999999 days, 23:59:59.999 — the largest millisecond-granular value). -/
def tdHi : Int := 999999999 * 86400000 + 86399999

/-- Construction of a timedelta from a millisecond total: values outside
the representable range raise OverflowError. -/
def tdCheck (x : Int) : Except PyExn Int :=
  if tdLo ≤ x ∧ x ≤ tdHi then .ok x else .error .overflowError

/-- Addition of two timedeltas (line 147): the sum is range-checked again
and can raise OverflowError. -/
def tdAdd (a b : Int) : Except PyExn Int := tdCheck (a + b)

/-- duration_to_fps (lines 70–93), up to and including the timedelta
construction.  The duration value is the exact total in milliseconds.
Failure modes: fewer than three colon-separated components is an uncaught
IndexError on duration_set[2]; a non-numeric component is an uncaught
ValueError from int(); an out-of-range total is an uncaught OverflowError
from timedelta.  A fourth colon component or a second fraction point is
silently ignored, exactly as the code's indexing does. -/
def duration_to_fps (u : UStr) : Except PyExn Int :=
  match splitOnChar 58 u with
  | d0 :: d1 :: d2 :: _ =>
    match splitOnChar 46 d2 with
    | [sPart, msPart] =>
      match pyInt d0, pyInt d1, pyInt sPart, pyInt msPart with
      | some h, some m, some s, some f => tdCheck (((h * 60 + m) * 60 + s) * 1000 + f)
      | _, _, _, _ => .error .valueError
    | sPart :: _ =>
      match pyInt d0, pyInt d1, pyInt sPart with
      | some h, some m, some s => tdCheck (((h * 60 + m) * 60 + s) * 1000)
      | _, _, _ => .error .valueError
    | [] => .error .valueError
  | _ => .error .indexError

/-- The exact total-seconds value of a duration given in milliseconds
(timedelta.total_seconds as an exact rational, before float conversion). -/
def durationSecondsQ (x : Int) : ℚ := (x : ℚ) / 1000

/-- Millisecond total of H hours, M minutes, S seconds, F milliseconds. -/
def msOf (h m s f : Nat) : Int := (((h : Int) * 60 + m) * 60 + s) * 1000 + f

/-- Two-digit zero-padded decimal rendering (for MM/SS components). -/
def pad2 (n : Nat) : UStr := [48 + n / 10, 48 + n % 10]

/-- Three-digit zero-padded decimal rendering (for fff components). -/
def pad3 (n : Nat) : UStr := [48 + n / 100, 48 + n / 10 % 10, 48 + n % 10]

/-- A well-formed H:MM:SS duration string. -/
def durStrNoMs (h m s : Nat) : UStr := natToDec h ++ 58 :: (pad2 m ++ 58 :: pad2 s)

/-- A well-formed H:MM:SS.fff duration string. -/
def durStrMs (h m s f : Nat) : UStr :=
  natToDec h ++ 58 :: (pad2 m ++ 58 :: (pad2 s ++ 46 :: pad3 f))

theorem natToDecAux_mem :
    ∀ (fuel n : Nat), n < fuel → ∀ c ∈ natToDecAux fuel n, 48 ≤ c ∧ c ≤ 57 := by
  intro fuel
  induction fuel with
  | zero => intro n h; omega
  | succ fuel ih =>
    intro n h c hc
    simp only [natToDecAux] at hc
    split_ifs at hc with h10
    · simp only [List.mem_singleton] at hc
      omega
    · rcases List.mem_append.mp hc with h1 | h2
      · exact ih (n / 10) (by omega) c h1
      · simp only [List.mem_singleton] at h2
        omega

theorem natToDecAux_ne_nil (fuel n : Nat) (h : n < fuel) : natToDecAux fuel n ≠ [] := by
  cases fuel with
  | zero => omega
  | succ fuel => simp only [natToDecAux]; split_ifs <;> simp

theorem natToDecAux_foldl :
    ∀ (fuel n a : Nat), n < fuel →
      (natToDecAux fuel n).foldl (fun a c => a * 10 + (c - 48)) a
        = a * 10 ^ (natToDecAux fuel n).length + n := by
  intro fuel
  induction fuel with
  | zero => intro n a h; omega
  | succ fuel ih =>
    intro n a h
    simp only [natToDecAux]
    split_ifs with h10
    · simp only [List.foldl_cons, List.foldl_nil, List.length_singleton, pow_one]
      omega
    · rw [List.foldl_append, ih (n / 10) a (by omega)]
      simp only [List.foldl_cons, List.foldl_nil, List.length_append, List.length_singleton]
      rw [pow_succ, ← mul_assoc]
      omega

theorem natToDec_digits (n : Nat) : ∀ c ∈ natToDec n, 48 ≤ c ∧ c ≤ 57 :=
  natToDecAux_mem (n + 1) n (by omega)

theorem digitsVal_natToDec (n : Nat) : digitsVal (natToDec n) = some n := by
  unfold digitsVal
  have hne : natToDec n ≠ [] := natToDecAux_ne_nil (n + 1) n (by omega)
  have hall : (natToDec n).all isDigitB = true := by
    rw [List.all_eq_true]
    intro c hc
    have := natToDec_digits n c hc
    simp only [isDigitB, decide_eq_true_eq]
    omega
  rw [if_neg (by simpa [List.isEmpty_iff] using hne), if_pos hall]
  unfold natToDec
  rw [natToDecAux_foldl (n + 1) n 0 (by omega)]
  simp

theorem pyStrip_of_digits (u : UStr) (h : ∀ c ∈ u, 48 ≤ c ∧ c ≤ 57) : pyStrip u = u := by
  have hws : ∀ c ∈ u, wsCharB c = false := by
    intro c hc
    have := h c hc
    simp only [wsCharB, decide_eq_false_iff_not]
    omega
  have h1 : u.dropWhile wsCharB = u := by
    cases u with
    | nil => rfl
    | cons a l => rw [List.dropWhile_cons, if_neg (by simp [hws a (List.mem_cons_self a l)])]
  unfold pyStrip
  rw [h1]
  have h2 : u.reverse.dropWhile wsCharB = u.reverse := by
    cases hr : u.reverse with
    | nil => rfl
    | cons a l =>
      have ha : a ∈ u := by
        rw [← List.mem_reverse, hr]
        exact List.mem_cons_self a l
      rw [List.dropWhile_cons, if_neg (by simp [hws a ha])]
  rw [h2, List.reverse_reverse]

theorem pyInt_natToDec (n : Nat) : pyInt (natToDec n) = some (n : Int) := by
  have hne : natToDec n ≠ [] := natToDecAux_ne_nil (n + 1) n (by omega)
  have hd := natToDec_digits n
  have hhd : 48 ≤ (natToDec n).headD 0 ∧ (natToDec n).headD 0 ≤ 57 := by
    rcases hu : natToDec n with _ | ⟨c, rest⟩
    · exact absurd hu hne
    · exact hd ((c :: rest).headD 0) (by rw [hu]; exact List.mem_cons_self c rest)
  unfold pyInt
  rw [pyStrip_of_digits _ hd, if_neg (by omega), if_neg (by omega), digitsVal_natToDec n]
  rfl

theorem digitsVal_pad2 (m : Nat) (h : m < 100) : digitsVal (pad2 m) = some m := by
  unfold digitsVal pad2
  rw [if_neg (by simp), if_pos (by
    simp only [List.all_cons, List.all_nil, isDigitB, Bool.and_true, Bool.and_eq_true,
      decide_eq_true_eq]
    omega)]
  simp only [List.foldl_cons, List.foldl_nil, Option.some.injEq]
  omega

theorem pad2_digits (m : Nat) (h : m < 100) : ∀ c ∈ pad2 m, 48 ≤ c ∧ c ≤ 57 := by
  intro c hc
  simp only [pad2, List.mem_cons, List.not_mem_nil, or_false] at hc
  rcases hc with rfl | rfl <;> omega

theorem pyInt_pad2 (m : Nat) (h : m < 100) : pyInt (pad2 m) = some (m : Int) := by
  unfold pyInt
  rw [pyStrip_of_digits _ (pad2_digits m h)]
  have hh : (pad2 m).headD 0 = 48 + m / 10 := rfl
  rw [if_neg (by rw [hh]; omega), if_neg (by rw [hh]; omega), digitsVal_pad2 m h]
  rfl

theorem digitsVal_pad3 (f : Nat) (h : f < 1000) : digitsVal (pad3 f) = some f := by
  unfold digitsVal pad3
  rw [if_neg (by simp), if_pos (by
    simp only [List.all_cons, List.all_nil, isDigitB, Bool.and_true, Bool.and_eq_true,
      decide_eq_true_eq]
    omega)]
  simp only [List.foldl_cons, List.foldl_nil, Option.some.injEq]
  omega

theorem pad3_digits (f : Nat) (h : f < 1000) : ∀ c ∈ pad3 f, 48 ≤ c ∧ c ≤ 57 := by
  intro c hc
  simp only [pad3, List.mem_cons, List.not_mem_nil, or_false] at hc
  rcases hc with rfl | rfl | rfl <;> omega

theorem pyInt_pad3 (f : Nat) (h : f < 1000) : pyInt (pad3 f) = some (f : Int) := by
  unfold pyInt
  rw [pyStrip_of_digits _ (pad3_digits f h)]
  have hh : (pad3 f).headD 0 = 48 + f / 100 := rfl
  rw [if_neg (by rw [hh]; omega), if_neg (by rw [hh]; omega), digitsVal_pad3 f h]
  rfl

theorem splitOnChar_of_not_mem (c : Nat) (u : UStr) (h : c ∉ u) : splitOnChar c u = [u] := by
  induction u with
  | nil => rfl
  | cons b rest ih =>
    have hb : ¬b = c := fun hbc => h (by simp [hbc])
    have hr : c ∉ rest := fun hm => h (List.mem_cons_of_mem b hm)
    simp only [splitOnChar, if_neg hb, ih hr]

theorem splitOnChar_append (c : Nat) (l r : UStr) (h : c ∉ l) :
    splitOnChar c (l ++ c :: r) = l :: splitOnChar c r := by
  induction l with
  | nil =>
    simp only [List.nil_append, splitOnChar, if_pos rfl, if_true]
  | cons b tl ih =>
    have hb : ¬b = c := fun hbc => h (by simp [hbc])
    have ht : c ∉ tl := fun hm => h (List.mem_cons_of_mem b hm)
    simp only [List.cons_append, splitOnChar, if_neg hb, List.append_eq, ih ht]

/-- Claim C5 is false as stated for unbounded H: a syntactically valid
duration string whose hour count exceeds the timedelta range makes
duration_to_fps raise an uncaught OverflowError instead of producing a
value (timedelta is capped at 999999999 days). -/
theorem c5_counterexample :
    duration_to_fps (strToU "1000000000000000:00:00") = .error .overflowError := by
  decide

set_option maxRecDepth 8000 in
/-- Claim C5 amended: for every well-formed duration string H:MM:SS.fff or
H:MM:SS whose total fits in Python's timedelta range (at most 999999999
days), the Duration Parser produces the exact elapsed-time value whose
total-seconds representation is H*3600 + M*60 + S + fff/1000 (fff
milliseconds when present, else 0); H may be any such non-negative integer,
in particular any H at or above 24. -/
theorem c5_amended_duration_value (hh mm ss ff : Nat) (h1 : mm < 60) (h2 : ss < 60)
    (h3 : ff < 1000) (h4 : msOf hh mm ss ff ≤ tdHi) :
    duration_to_fps (durStrMs hh mm ss ff) = .ok (msOf hh mm ss ff) ∧
    duration_to_fps (durStrNoMs hh mm ss) = .ok (msOf hh mm ss 0) ∧
    durationSecondsQ (msOf hh mm ss ff)
      = (hh : ℚ) * 3600 + (mm : ℚ) * 60 + (ss : ℚ) + (ff : ℚ) / 1000 := by
  have hno1 : (58 : Nat) ∉ natToDec hh := fun hm => by
    have := natToDec_digits hh 58 hm; omega
  have hno2 : (58 : Nat) ∉ pad2 mm := fun hm => by
    have := pad2_digits mm (by omega) 58 hm; omega
  have hnos : (58 : Nat) ∉ pad2 ss := fun hm => by
    have := pad2_digits ss (by omega) 58 hm; omega
  have hno3 : (58 : Nat) ∉ pad2 ss ++ 46 :: pad3 ff := by
    intro hm
    rcases List.mem_append.mp hm with hm1 | hm2
    · exact hnos hm1
    · rcases List.mem_cons.mp hm2 with hm3 | hm4
      · omega
      · have := pad3_digits ff h3 58 hm4; omega
  have hno46s : (46 : Nat) ∉ pad2 ss := fun hm => by
    have := pad2_digits ss (by omega) 46 hm; omega
  have hno46f : (46 : Nat) ∉ pad3 ff := fun hm => by
    have := pad3_digits ff h3 46 hm; omega
  have hnonneg : (0 : Int) ≤ msOf hh mm ss ff := by
    unfold msOf; positivity
  have hnonneg0 : (0 : Int) ≤ msOf hh mm ss 0 := by
    unfold msOf; positivity
  have hle0 : msOf hh mm ss 0 ≤ msOf hh mm ss ff := by
    unfold msOf; omega
  refine ⟨?_, ?_, ?_⟩
  · have hsplit1 : splitOnChar 58 (durStrMs hh mm ss ff)
        = [natToDec hh, pad2 mm, pad2 ss ++ 46 :: pad3 ff] := by
      unfold durStrMs
      rw [splitOnChar_append 58 (natToDec hh) _ hno1,
        splitOnChar_append 58 (pad2 mm) _ hno2,
        splitOnChar_of_not_mem 58 _ hno3]
    have hsplit2 : splitOnChar 46 (pad2 ss ++ 46 :: pad3 ff) = [pad2 ss, pad3 ff] := by
      rw [splitOnChar_append 46 (pad2 ss) _ hno46s,
        splitOnChar_of_not_mem 46 _ hno46f]
    unfold duration_to_fps
    simp only [hsplit1, hsplit2, pyInt_natToDec, pyInt_pad2 mm (by omega),
      pyInt_pad2 ss (by omega), pyInt_pad3 ff h3]
    unfold tdCheck
    rw [if_pos ⟨by unfold tdLo; unfold msOf at hnonneg; omega, by unfold msOf at h4; omega⟩]
    unfold msOf
    norm_num
  · have hsplit1 : splitOnChar 58 (durStrNoMs hh mm ss)
        = [natToDec hh, pad2 mm, pad2 ss] := by
      unfold durStrNoMs
      rw [splitOnChar_append 58 (natToDec hh) _ hno1,
        splitOnChar_append 58 (pad2 mm) _ hno2,
        splitOnChar_of_not_mem 58 _ hnos]
    have hsplit2 : splitOnChar 46 (pad2 ss) = [pad2 ss] :=
      splitOnChar_of_not_mem 46 _ hno46s
    unfold duration_to_fps
    simp only [hsplit1, hsplit2, pyInt_natToDec, pyInt_pad2 mm (by omega),
      pyInt_pad2 ss (by omega)]
    unfold tdCheck
    rw [if_pos ⟨by unfold tdLo; unfold msOf at hnonneg0; omega,
      by unfold msOf at h4 hle0; omega⟩]
    unfold msOf
    norm_num
  · unfold durationSecondsQ msOf
    push_cast
    field_simp
    ring

/-- Witness for the amended C5 at a duration with 30 hours (beyond one day)
and a fractional part. -/
theorem c5_amended_duration_value_witness :
    duration_to_fps (durStrMs 30 10 5 250) = .ok (msOf 30 10 5 250) ∧
    duration_to_fps (durStrNoMs 30 10 5) = .ok (msOf 30 10 5 0) ∧
    durationSecondsQ (msOf 30 10 5 250)
      = (30 : ℚ) * 3600 + (10 : ℚ) * 60 + (5 : ℚ) + (250 : ℚ) / 1000 :=
  c5_amended_duration_value 30 10 5 250 (by decide) (by decide) (by decide) (by decide)

/-- Gregorian leap-year rule (as used by Python's datetime). -/
def isLeapB (y : Nat) : Bool := decide (y % 4 = 0 ∧ (y % 100 ≠ 0 ∨ y % 400 = 0))

/-- Length of a month, as datetime validates the day against it. -/
def daysInMonth (y m : Nat) : Nat :=
  if m = 2 then (if isLeapB y then 29 else 28)
  else if m = 4 ∨ m = 6 ∨ m = 9 ∨ m = 11 then 30
  else 31

/-- strptime token %m and %I: the regex (1[0-2]|0[1-9]|[1-9]), ordered
alternation, followed in the format by a non-digit, so the greedy two-digit
try needs no backtracking. -/
def parse2dig12 : UStr → Option (Nat × UStr)
  | c1 :: c2 :: rest =>
    if c1 = 49 ∧ 48 ≤ c2 ∧ c2 ≤ 50 then some (10 + (c2 - 48), rest)
    else if c1 = 48 ∧ 49 ≤ c2 ∧ c2 ≤ 57 then some (c2 - 48, rest)
    else if 49 ≤ c1 ∧ c1 ≤ 57 then some (c1 - 48, c2 :: rest)
    else none
  | [c1] => if 49 ≤ c1 ∧ c1 ≤ 57 then some (c1 - 48, []) else none
  | [] => none

/-- strptime token %d: the regex (3[01]|[12]\d|0[1-9]|[1-9]). -/
def parseDay : UStr → Option (Nat × UStr)
  | c1 :: c2 :: rest =>
    if c1 = 51 ∧ (c2 = 48 ∨ c2 = 49) then some (30 + (c2 - 48), rest)
    else if (c1 = 49 ∨ c1 = 50) ∧ 48 ≤ c2 ∧ c2 ≤ 57 then
      some ((c1 - 48) * 10 + (c2 - 48), rest)
    else if c1 = 48 ∧ 49 ≤ c2 ∧ c2 ≤ 57 then some (c2 - 48, rest)
    else if 49 ≤ c1 ∧ c1 ≤ 57 then some (c1 - 48, c2 :: rest)
    else none
  | [c1] => if 49 ≤ c1 ∧ c1 ≤ 57 then some (c1 - 48, []) else none
  | [] => none

/-- strptime token %y: exactly two digits. -/
def parse2digits : UStr → Option (Nat × UStr)
  | c1 :: c2 :: rest =>
    if 48 ≤ c1 ∧ c1 ≤ 57 ∧ 48 ≤ c2 ∧ c2 ≤ 57 then
      some ((c1 - 48) * 10 + (c2 - 48), rest)
    else none
  | _ => none

/-- strptime token %M: the regex ([0-5]\d|\d). -/
def parseMin : UStr → Option (Nat × UStr)
  | c1 :: c2 :: rest =>
    if 48 ≤ c1 ∧ c1 ≤ 53 ∧ 48 ≤ c2 ∧ c2 ≤ 57 then
      some ((c1 - 48) * 10 + (c2 - 48), rest)
    else if 48 ≤ c1 ∧ c1 ≤ 57 then some (c1 - 48, c2 :: rest)
    else none
  | [c1] => if 48 ≤ c1 ∧ c1 ≤ 57 then some (c1 - 48, []) else none
  | [] => none

/-- strptime token %S: the regex (6[01]|[0-5]\d|\d); 60 and 61 parse but the
datetime constructor then rejects them. -/
def parseSec : UStr → Option (Nat × UStr)
  | c1 :: c2 :: rest =>
    if c1 = 54 ∧ (c2 = 48 ∨ c2 = 49) then some (60 + (c2 - 48), rest)
    else if 48 ≤ c1 ∧ c1 ≤ 53 ∧ 48 ≤ c2 ∧ c2 ≤ 57 then
      some ((c1 - 48) * 10 + (c2 - 48), rest)
    else if 48 ≤ c1 ∧ c1 ≤ 57 then some (c1 - 48, c2 :: rest)
    else none
  | [c1] => if 48 ≤ c1 ∧ c1 ≤ 57 then some (c1 - 48, []) else none
  | [] => none

/-- A literal whitespace in a strptime format matches one or more whitespace
characters. -/
def ws1 : UStr → Option UStr
  | c :: rest => if wsCharB c then some (rest.dropWhile wsCharB) else none
  | [] => none

/-- A literal character in a strptime format. -/
def litTok (t : Nat) : UStr → Option UStr
  | c :: rest => if c = t then some rest else none
  | [] => none

/-- ASCII lower-casing, for the IGNORECASE matching of AM/PM. -/
def lowerAscii (c : Nat) : Nat := if 65 ≤ c ∧ c ≤ 90 then c + 32 else c

/-- strptime token %p in the C locale: AM or PM, case-insensitively.
Returns whether the marker is PM. -/
def parseAmPm : UStr → Option (Bool × UStr)
  | c1 :: c2 :: rest =>
    if (lowerAscii c1 = 97 ∨ lowerAscii c1 = 112) ∧ lowerAscii c2 = 109 then
      some (decide (lowerAscii c1 = 112), rest)
    else none
  | _ => none

/-- The date part M/D/YY of the strptime format: month, day, two-digit
year, and the remaining input. -/
def parseDatePart (u : UStr) : Option (Nat × Nat × Nat × UStr) :=
  match parse2dig12 u with
  | none => none
  | some (mo, r1) =>
    match litTok 47 r1 with
    | none => none
    | some r2 =>
      match parseDay r2 with
      | none => none
      | some (dy, r3) =>
        match litTok 47 r3 with
        | none => none
        | some r4 =>
          match parse2digits r4 with
          | none => none
          | some (yy, r5) => some (mo, dy, yy, r5)

/-- The time part H:MM:SS of the strptime format: 12-hour clock hour,
minute, second, and the remaining input. -/
def parseTimePart (u : UStr) : Option (Nat × Nat × Nat × UStr) :=
  match parse2dig12 u with
  | none => none
  | some (ih, r1) =>
    match litTok 58 r1 with
    | none => none
    | some r2 =>
      match parseMin r2 with
      | none => none
      | some (mi, r3) =>
        match litTok 58 r3 with
        | none => none
        | some r4 =>
          match parseSec r4 with
          | none => none
          | some (se, r5) => some (ih, mi, se, r5)

/-- The trailing " %p" of the strptime format; strptime errors out unless
the whole string is consumed. -/
def parseAmPmTail (u : UStr) : Option Bool :=
  match ws1 u with
  | none => none
  | some r1 =>
    match parseAmPm r1 with
    | none => none
    | some (pm, r2) => if r2 = [] then some pm else none

/-- datetime.strptime(s, "%m/%d/%y %I:%M:%S %p") (line 63), modelled from
the token regexes _strptime builds for that format: the whole string must
be consumed, %y maps 00-68 to 2000-2068 and 69-99 to 1969-1999, %I with %p
gives a 24-hour clock, and the datetime constructor rejects a day beyond
the month's length or a leap second.  Returns
(year, month, day, hour24, minute, second). -/
def parseTs (u : UStr) : Option (Nat × Nat × Nat × Nat × Nat × Nat) :=
  match parseDatePart u with
  | none => none
  | some (mo, dy, yy, r5) =>
    match ws1 r5 with
    | none => none
    | some r6 =>
      match parseTimePart r6 with
      | none => none
      | some (ih, mi, se, r11) =>
        match parseAmPmTail r11 with
        | none => none
        | some pm =>
          let y := if yy <= 68 then 2000 + yy else 1900 + yy
          if 1 <= dy ∧ dy <= daysInMonth y mo ∧ se <= 59 then
            some (y, mo, dy,
              if pm then (if ih = 12 then 12 else ih + 12)
              else (if ih = 12 then 0 else ih),
              mi, se)
          else none

/-- Days since 1970-01-01 of a Gregorian civil date (standard era-based
conversion). -/
def daysFromCivil (y : Int) (m d : Nat) : Int :=
  let y2 : Int := if m ≤ 2 then y - 1 else y
  let era : Int := Int.fdiv y2 400
  let yoe : Nat := (y2 - era * 400).toNat
  let mp : Nat := if 2 < m then m - 3 else m + 9
  let doy : Nat := (153 * mp + 2) / 5 + d - 1
  let doe : Nat := yoe * 365 + yoe / 4 - yoe / 100 + doy
  era * 146097 + (doe : Int) - 719468

/-- Civil date (year, month, day) of a count of days since 1970-01-01
(inverse of daysFromCivil). -/
def civilFromDays (z : Int) : Int × Nat × Nat :=
  let z2 := z + 719468
  let era := Int.fdiv z2 146097
  let doe : Nat := (z2 - era * 146097).toNat
  let yoe : Nat := (doe - doe / 1460 + doe / 36524 - doe / 146096) / 365
  let doy : Nat := doe - (365 * yoe + yoe / 4 - yoe / 100)
  let mp : Nat := (5 * doy + 2) / 153
  let d : Nat := doy - (153 * mp + 2) / 5 + 1
  let m : Nat := if mp < 10 then mp + 3 else mp - 9
  ((yoe : Int) + era * 400 + (if m ≤ 2 then 1 else 0), m, d)

/-- Day of week with Sunday = 0 (1970-01-01 was a Thursday). -/
def weekdaySunday0 (z : Int) : Nat := ((z + 4).emod 7).toNat

/-- Day of month of the first Sunday of a month. -/
def firstSundayDom (y : Int) (m : Nat) : Nat :=
  1 + (7 - weekdaySunday0 (daysFromCivil y m 1)) % 7

/-- Naive local seconds since the epoch of a civil date-time. -/
def secondsOfLocal (y : Int) (mo d hh mi ss : Nat) : Int :=
  daysFromCivil y mo d * 86400 + (hh * 3600 + mi * 60 + ss : Nat)

/-- First naive local second that pytz resolves to daylight time under the
US rules in effect since 2007 (DST starts the second Sunday of March;
2:00-2:59:59 does not exist and localize's is_dst=False default resolves it
to standard time, so daylight readings start at 3:00). -/
def usDstStartLocal (y : Int) : Int :=
  daysFromCivil y 3 (firstSundayDom y 3 + 7) * 86400 + 3 * 3600

/-- First naive local second after the daylight period (DST ends the first
Sunday of November; 1:00-1:59:59 is ambiguous and is_dst=False resolves it
to standard time, so daylight readings end at 1:00). -/
def usDstEndLocal (y : Int) : Int :=
  daysFromCivil y 11 (firstSundayDom y 11) * 86400 + 1 * 3600

/-- Is a naive local time in year y resolved to Pacific daylight time by
timezone('US/Pacific').localize?  Modelled from the tz database rules for
years 2007 and later (the only years the verified claims exercise is 2011;
pre-2007 years followed different schedules not modelled here). -/
def pacLocalIsDst (y : Int) (t : Int) : Bool :=
  decide (usDstStartLocal y ≤ t ∧ t < usDstEndLocal y)

/-- Eastern DST window expressed in UTC seconds: it starts at 2:00 EST
(07:00 UTC) on the second Sunday of March and ends at 2:00 EDT (06:00 UTC)
on the first Sunday of November (same modelling scope as pacLocalIsDst). -/
def eastIsDstUtc (y : Int) (t : Int) : Bool :=
  decide (daysFromCivil y 3 (firstSundayDom y 3 + 7) * 86400 + 7 * 3600 ≤ t ∧
          t < daysFromCivil y 11 (firstSundayDom y 11) * 86400 + 6 * 3600)

/-- Four-digit zero-padded decimal (all representable years are
four-digit). -/
def pad4 (n : Nat) : UStr :=
  [48 + n / 1000 % 10, 48 + n / 100 % 10, 48 + n / 10 % 10, 48 + n % 10]

/-- datetime.isoformat() of a zone-aware time with whole seconds:
YYYY-MM-DDTHH:MM:SS±HH:MM with the Eastern offset in effect. -/
def isoFmt (y mo d hh mi ss : Nat) (dst : Bool) : UStr :=
  pad4 y ++ 45 :: (pad2 mo ++ 45 :: (pad2 d ++ 84 :: (pad2 hh ++ 58 ::
    (pad2 mi ++ 58 :: (pad2 ss ++ strToU (if dst then "-04:00" else "-05:00"))))))

/-- timezone('US/Pacific').localize(dt).astimezone(timezone('US/Eastern'))
followed by isoformat() (line 67), under the post-2007 US DST rules. -/
def pacificToEasternIso (y : Int) (mo d hh mi ss : Nat) : UStr :=
  let tLoc := secondsOfLocal y mo d hh mi ss
  let utc := tLoc + (if pacLocalIsDst y tLoc then 7 else 8) * 3600
  let yU := (civilFromDays (Int.fdiv utc 86400)).1
  let dstE := eastIsDstUtc yU utc
  let tE := utc - (if dstE then 4 else 5) * 3600
  let zd := Int.fdiv tE 86400
  let rem := (tE - zd * 86400).toNat
  isoFmt (civilFromDays zd).1.toNat (civilFromDays zd).2.1 (civilFromDays zd).2.2
    (rem / 3600) (rem % 3600 / 60) (rem % 60) dstE

/-- The ValueError raised by strptime or the datetime constructor, carrying
the offending input string. -/
inductive TsErr
  | valueError (input : UStr)
deriving DecidableEq

/-- iso_est_date (lines 52–67): parse the Pacific timestamp; on ValueError
return (None, e); otherwise return the Eastern ISO rendering.  The Python
pair (result, error) is modelled as an Except. -/
def iso_est_date (u : UStr) : Except TsErr UStr :=
  match parseTs u with
  | none => .error (.valueError u)
  | some (y, mo, dy, hh, mi, ss) => .ok (pacificToEasternIso (y : Int) mo dy hh mi ss)

/-- maybe_quote (lines 103–108): wrap in quote characters when the element
contains a comma; no escaping of anything inside. -/
def maybe_quote (u : UStr) : UStr := if 44 ∈ u then 34 :: (u ++ [34]) else u

/-- "{:0>5}".format (line 137): left-pad with '0' to width 5; longer values
pass through unchanged. -/
def padZip (u : UStr) : UStr :=
  if u.length < 5 then List.replicate (5 - u.length) 48 ++ u else u

/-- unicode.upper() (line 140), ASCII fragment (the verified claims only
exercise ASCII names; non-ASCII letters are left unchanged here). -/
def pyUpper (u : UStr) : UStr := u.map (fun c => if 97 ≤ c ∧ c ≤ 122 then c - 32 else c)

/-- Strip trailing '0' characters (for the fractional part of a float
rendering). -/
def stripTrail48 (l : UStr) : UStr := (l.reverse.dropWhile (fun c => c == 48)).reverse

/-- "%s" % duration.total_seconds() (lines 144–147): the shortest-roundtrip
decimal str() of the float total seconds.  For millisecond-granular values
whose decimal form has at most 15 significant digits (all values the
verified claims evaluate), that is exactly the decimal itself: integer part,
then ".0" for whole values or the fraction with trailing zeros dropped. -/
def renderFps (t : Int) : UStr :=
  (if t < 0 then [45] else []) ++ natToDec (t.natAbs / 1000) ++
    (if t.natAbs % 1000 = 0 then [46, 48] else 46 :: stripTrail48 (pad3 (t.natAbs % 1000)))

/-- One diagnostic written to stderr (line 129): the failure cause and the
original raw (pre-sanitization) record. -/
structure ErrEntry where
  cause : TsErr
  rawRow : List ByteStr
deriving DecidableEq

/-- Outcome of the loop body for one row. -/
inductive StepResult
  | emit (line : UStr)
  | drop (d : ErrEntry)
  | crash (e : PyExn)
deriving DecidableEq

/-- ','.join + write (lines 96–100): the output line for a row (without the
trailing newline). -/
def utf8_print : List UStr → UStr
  | [] => []
  | [x] => x
  | x :: xs => x ++ 44 :: utf8_print xs

/-- The loop body of process_csv_input (lines 114–153) for one row, with
every field access and fallible operation in the source's order:
sanitize all fields (can raise), header check on field 0 (IndexError when
the row is empty), verbatim pass-through when field 0 is "Timestamp",
timestamp conversion with drop-and-log on failure, then fields 1,2,3,4
(first duration), 5 (second duration), the duration sum, and field 7;
missing fields raise IndexError and duration failures raise uncaught. -/
def stepRow (row : List ByteStr) : StepResult :=
  match sanitize_unicode row with
  | .error e => .crash e
  | .ok u =>
    match u.get? 0 with
    | none => .crash .indexError
    | some f0 =>
      if f0 = strToU "Timestamp" then .emit (utf8_print u)
      else
        match iso_est_date f0 with
        | .error err => .drop ⟨err, row⟩
        | .ok ts =>
          match u.get? 1 with
          | none => .crash .indexError
          | some f1 =>
            match u.get? 2 with
            | none => .crash .indexError
            | some f2 =>
              match u.get? 3 with
              | none => .crash .indexError
              | some f3 =>
                match u.get? 4 with
                | none => .crash .indexError
                | some f4 =>
                  match duration_to_fps f4 with
                  | .error e => .crash e
                  | .ok d1 =>
                    match u.get? 5 with
                    | none => .crash .indexError
                    | some f5 =>
                      match duration_to_fps f5 with
                      | .error e => .crash e
                      | .ok d2 =>
                        match tdAdd d1 d2 with
                        | .error e => .crash e
                        | .ok dsum =>
                          match u.get? 7 with
                          | none => .crash .indexError
                          | some f7 =>
                            .emit (utf8_print
                              [ts, maybe_quote f1, padZip f2, pyUpper f3,
                               renderFps d1, renderFps d2, renderFps dsum,
                               maybe_quote f7])

/-- The observable outcome of a run: stdout lines, stderr diagnostics, and
whether an uncaught exception terminated the loop (nothing after the
crashing row is processed). -/
structure RunResult where
  out : List UStr
  err : List ErrEntry
  crashed : Option PyExn
deriving DecidableEq

/-- process_csv_input (lines 111–153) over the record stream produced by
the csv reader (record splitting itself is out of scope per the spec). -/
def process_csv_input : List (List ByteStr) → RunResult
  | [] => ⟨[], [], none⟩
  | r :: rest =>
    match stepRow r with
    | .emit line =>
      let res := process_csv_input rest
      ⟨line :: res.out, res.err, res.crashed⟩
    | .drop d =>
      let res := process_csv_input rest
      ⟨res.out, d :: res.err, res.crashed⟩
    | .crash e => ⟨[], [], some e⟩

/-- Unfolding of the row loop when a row is emitted. -/
theorem process_cons_emit (r : List ByteStr) (rest : List (List ByteStr)) (line : UStr)
    (h : stepRow r = .emit line) :
    process_csv_input (r :: rest) =
      ⟨line :: (process_csv_input rest).out, (process_csv_input rest).err,
       (process_csv_input rest).crashed⟩ := by
  conv_lhs => rw [process_csv_input]
  rw [h]

/-- Unfolding of the row loop when a row is dropped with a diagnostic. -/
theorem process_cons_drop (r : List ByteStr) (rest : List (List ByteStr)) (d : ErrEntry)
    (h : stepRow r = .drop d) :
    process_csv_input (r :: rest) =
      ⟨(process_csv_input rest).out, d :: (process_csv_input rest).err,
       (process_csv_input rest).crashed⟩ := by
  conv_lhs => rw [process_csv_input]
  rw [h]

/-- Unfolding of the row loop when a row raises: the run terminates with no
further output. -/
theorem process_cons_crash (r : List ByteStr) (rest : List (List ByteStr)) (e : PyExn)
    (h : stepRow r = .crash e) :
    process_csv_input (r :: rest) = ⟨[], [], some e⟩ := by
  conv_lhs => rw [process_csv_input]
  rw [h]


/-- The spec's reference input row, as the 8 fields the csv reader produces
from it. -/
def exampleRow : List ByteStr :=
  [strToB "4/1/11 11:00:00 AM", strToB "123 4th St, Anywhere, AA", strToB "94121",
   strToB "Monkey Alberto", strToB "1:23:32", strToB "1:32:33", strToB "zzsasdfa",
   strToB "I am the very model"]

/-- Claim C4: processing the spec's reference 8-field row yields exactly the
documented output line — timestamp converted from Pacific to Eastern ISO,
address re-quoted, ZIP unchanged, name upper-cased, both durations as
decimal seconds, TotalDuration recomputed as their sum (the seventh input
field zzsasdfa is discarded unparsed and causes no failure), and the notes
passed through; no diagnostic and no crash. -/
theorem c4_end_to_end :
    process_csv_input [exampleRow] =
      ⟨[strToU "2011-04-01T14:00:00-04:00,\"123 4th St, Anywhere, AA\",94121,MONKEY ALBERTO,5012.0,5553.0,10565.0,I am the very model"],
       [], none⟩ := by
  decide

/-- Claim C8: a field passed through the quoting rule is wrapped in quote
characters exactly when it contains the delimiter ',', and in both cases the
content is emitted verbatim with no escaping. -/
theorem c8_quote_iff_comma (u : UStr) :
    (44 ∈ u → maybe_quote u = 34 :: (u ++ [34])) ∧ (44 ∉ u → maybe_quote u = u) := by
  constructor <;> intro h <;> simp [maybe_quote, h]

/-- Witness for C8 on a field with and a field without a comma (the quoted
output keeps an embedded quote character unescaped). -/
theorem c8_quote_iff_comma_witness :
    maybe_quote (strToU "a,\"b") = 34 :: (strToU "a,\"b" ++ [34]) ∧
    maybe_quote (strToU "ab") = strToU "ab" :=
  ⟨(c8_quote_iff_comma (strToU "a,\"b")).1 (by decide),
   (c8_quote_iff_comma (strToU "ab")).2 (by decide)⟩

/-- Claim C9: the PostalCode formatter left-pads with '0' to width 5 when
the value is shorter, passes values of length at least 5 through unchanged
(non-numeric content included — it never inspects the characters), and never
truncates: the output length is max 5 len. -/
theorem c9_zip_pad (u : UStr) :
    (u.length < 5 → padZip u = List.replicate (5 - u.length) 48 ++ u) ∧
    (5 ≤ u.length → padZip u = u) ∧
    (padZip u).length = max 5 u.length := by
  refine ⟨fun h => ?_, fun h => ?_, ?_⟩
  · unfold padZip
    rw [if_pos h]
  · unfold padZip
    rw [if_neg (by omega)]
  · unfold padZip
    split_ifs with h
    · simp only [List.length_append, List.length_replicate]
      omega
    · omega

/-- Witness for C9 at the spec's examples "123" and "94121" and at a
non-numeric value. -/
theorem c9_zip_pad_witness :
    padZip (strToU "123") = List.replicate 2 48 ++ strToU "123" ∧
    padZip (strToU "94121") = strToU "94121" ∧
    padZip (strToU "abcdef") = strToU "abcdef" :=
  ⟨by have h := (c9_zip_pad (strToU "123")).1 (by decide); simpa using h,
   (c9_zip_pad (strToU "94121")).2.1 (by decide),
   (c9_zip_pad (strToU "abcdef")).2.1 (by decide)⟩

/-- Claim C3 is false as stated: there is no HEADER_SEEN flag.  Two rows
whose first field is "Timestamp" are BOTH emitted verbatim; the second is
not processed as a data row (which would have dropped it with a timestamp
diagnostic). -/
theorem c3_counterexample :
    process_csv_input [[strToB "Timestamp", strToB "Address"],
        [strToB "Timestamp", strToB "again"]] =
      ⟨[strToU "Timestamp,Address", strToU "Timestamp,again"], [], none⟩ := by
  decide

/-- Claim C3 amended: the orchestrator keeps no header state at all — every
row whose sanitized first field equals "Timestamp", wherever it occurs, is
emitted verbatim (the sanitized fields joined by commas) and the rest of the
stream is processed independently of it. -/
theorem c3_amended_every_header_row_passes (row : List ByteStr)
    (rest : List (List ByteStr)) (u : List UStr)
    (h1 : sanitize_unicode row = .ok u) (h2 : u.get? 0 = some (strToU "Timestamp")) :
    process_csv_input (row :: rest) =
      ⟨utf8_print u :: (process_csv_input rest).out, (process_csv_input rest).err,
       (process_csv_input rest).crashed⟩ := by
  have hstep : stepRow row = .emit (utf8_print u) := by
    unfold stepRow
    simp only [h1, h2, if_true]
  exact process_cons_emit row rest (utf8_print u) hstep

/-- Witness for the amended C3: a late pseudo-header row passes through
verbatim (no quoting applied to its comma-bearing field). -/
theorem c3_amended_every_header_row_passes_witness :
    process_csv_input [[strToB "Timestamp", strToB "x,y"]] =
      ⟨[strToU "Timestamp,x,y"], [], none⟩ := by
  have h := c3_amended_every_header_row_passes [strToB "Timestamp", strToB "x,y"] []
    [strToU "Timestamp", strToU "x,y"] (by decide) (by decide)
  simpa using h

/-- Claim C6: a data row whose Timestamp field does not parse (anything
strptime rejects for the pattern M/D/YY H:MM:SS AM|PM) is dropped: no
output line is produced for it, one diagnostic carrying the failure cause
and the original raw record is pushed on the error channel, and the rest of
the stream is processed exactly as it would have been without this row. -/
theorem c6_bad_timestamp_drops_row (row : List ByteStr) (rest : List (List ByteStr))
    (u : List UStr) (f0 : UStr) (err : TsErr)
    (h1 : sanitize_unicode row = .ok u) (h2 : u.get? 0 = some f0)
    (h3 : ¬f0 = strToU "Timestamp") (h4 : iso_est_date f0 = .error err) :
    process_csv_input (row :: rest) =
      ⟨(process_csv_input rest).out, ⟨err, row⟩ :: (process_csv_input rest).err,
       (process_csv_input rest).crashed⟩ := by
  have hstep : stepRow row = .drop ⟨err, row⟩ := by
    unfold stepRow
    simp only [h1, h2, if_neg h3, h4]
  exact process_cons_drop row rest ⟨err, row⟩ hstep

/-- An 8-field record whose Timestamp field is the unparsable "not-a-date". -/
def badTsRow : List ByteStr :=
  [strToB "not-a-date", strToB "123 4th St", strToB "94121", strToB "Monkey Alberto",
   strToB "1:23:32", strToB "1:32:33", strToB "zzsasdfa", strToB "notes"]

/-- Witness for C6: the "not-a-date" row is dropped with its diagnostic and
a following valid row is still processed. -/
theorem c6_bad_timestamp_drops_row_witness :
    process_csv_input [badTsRow, exampleRow] =
      ⟨(process_csv_input [exampleRow]).out,
       ⟨.valueError (strToU "not-a-date"), badTsRow⟩ :: (process_csv_input [exampleRow]).err,
       (process_csv_input [exampleRow]).crashed⟩ :=
  c6_bad_timestamp_drops_row badTsRow [exampleRow]
    [strToU "not-a-date", strToU "123 4th St", strToU "94121", strToU "Monkey Alberto",
     strToU "1:23:32", strToU "1:32:33", strToU "zzsasdfa", strToU "notes"]
    (strToU "not-a-date") (.valueError (strToU "not-a-date"))
    (by decide) (by decide) (by decide) (by decide)

/-- Claim C1 is false as stated: a malformed FirstDuration ("1:23", wrong
component count) raises an uncaught exception that kills the whole run —
no diagnostic is logged and the following valid row is never processed. -/
theorem c1_counterexample :
    process_csv_input
      [[strToB "4/1/11 11:00:00 AM", strToB "a", strToB "1", strToB "n", strToB "1:23",
        strToB "1:32:33", strToB "x", strToB "y"], exampleRow] =
      ⟨[], [], some .indexError⟩ := by
  decide

/-- Claim C1 amended: a malformed FirstDuration or SecondDuration in a data
row does NOT produce a row-local drop: duration_to_fps has no error
handling, so the exception (IndexError for a wrong component count,
ValueError for a non-numeric component, OverflowError for an out-of-range
total) propagates and terminates the entire run at that row, with no
diagnostic logged and no subsequent row processed — unlike timestamp
failures. -/
theorem c1_amended_duration_error_fatal :
    (∀ (row : List ByteStr) (rest : List (List ByteStr)) (u : List UStr)
       (f0 ts f4 : UStr) (e : PyExn),
      sanitize_unicode row = .ok u → u.get? 0 = some f0 → ¬f0 = strToU "Timestamp" →
      iso_est_date f0 = .ok ts → u.get? 4 = some f4 → duration_to_fps f4 = .error e →
      process_csv_input (row :: rest) = ⟨[], [], some e⟩) ∧
    (∀ (row : List ByteStr) (rest : List (List ByteStr)) (u : List UStr)
       (f0 ts f4 f5 : UStr) (d1 : Int) (e : PyExn),
      sanitize_unicode row = .ok u → u.get? 0 = some f0 → ¬f0 = strToU "Timestamp" →
      iso_est_date f0 = .ok ts → u.get? 4 = some f4 → duration_to_fps f4 = .ok d1 →
      u.get? 5 = some f5 → duration_to_fps f5 = .error e →
      process_csv_input (row :: rest) = ⟨[], [], some e⟩) := by
  constructor
  · intro row rest u f0 ts f4 e h1 h2 h3 h4 hf4 hd4
    have hlen : 4 < u.length := (List.get?_eq_some.mp hf4).1
    have hstep : stepRow row = .crash e := by
      unfold stepRow
      simp only [h1, h2, if_neg h3, h4, hf4, hd4,
        List.get?_eq_get (show 1 < u.length by omega),
        List.get?_eq_get (show 2 < u.length by omega),
        List.get?_eq_get (show 3 < u.length by omega)]
    exact process_cons_crash row rest e hstep
  · intro row rest u f0 ts f4 f5 d1 e h1 h2 h3 h4 hf4 hd4 hf5 hd5
    have hlen : 5 < u.length := (List.get?_eq_some.mp hf5).1
    have hstep : stepRow row = .crash e := by
      unfold stepRow
      simp only [h1, h2, if_neg h3, h4, hf4, hd4, hf5, hd5,
        List.get?_eq_get (show 1 < u.length by omega),
        List.get?_eq_get (show 2 < u.length by omega),
        List.get?_eq_get (show 3 < u.length by omega)]
    exact process_cons_crash row rest e hstep

/-- Witness for the amended C1 at concrete rows: a first duration with too
few components (IndexError) and a non-numeric second duration (ValueError). -/
theorem c1_amended_duration_error_fatal_witness :
    process_csv_input
      [[strToB "4/1/11 11:00:00 AM", strToB "a", strToB "1", strToB "n", strToB "1:23",
        strToB "1:32:33", strToB "x", strToB "y"]] = ⟨[], [], some .indexError⟩ ∧
    process_csv_input
      [[strToB "4/1/11 11:00:00 AM", strToB "a", strToB "1", strToB "n", strToB "1:23:32",
        strToB "zz:1:2", strToB "x", strToB "y"]] = ⟨[], [], some .valueError⟩ :=
  ⟨c1_amended_duration_error_fatal.1
      [strToB "4/1/11 11:00:00 AM", strToB "a", strToB "1", strToB "n", strToB "1:23",
       strToB "1:32:33", strToB "x", strToB "y"] []
      [strToU "4/1/11 11:00:00 AM", strToU "a", strToU "1", strToU "n", strToU "1:23",
       strToU "1:32:33", strToU "x", strToU "y"]
      (strToU "4/1/11 11:00:00 AM") (strToU "2011-04-01T14:00:00-04:00") (strToU "1:23")
      .indexError (by decide) (by decide) (by decide) (by decide) (by decide) (by decide),
   c1_amended_duration_error_fatal.2
      [strToB "4/1/11 11:00:00 AM", strToB "a", strToB "1", strToB "n", strToB "1:23:32",
       strToB "zz:1:2", strToB "x", strToB "y"] []
      [strToU "4/1/11 11:00:00 AM", strToU "a", strToU "1", strToU "n", strToU "1:23:32",
       strToU "zz:1:2", strToU "x", strToU "y"]
      (strToU "4/1/11 11:00:00 AM") (strToU "2011-04-01T14:00:00-04:00") (strToU "1:23:32")
      (strToU "zz:1:2") 5012000 .valueError (by decide) (by decide) (by decide) (by decide)
      (by decide) (by decide) (by decide) (by decide)⟩

/-- Claim C7 is false as stated: not EVERY record with fewer than 8 fields
crashes the pipeline.  A one-field record whose only field is an unparsable
timestamp is dropped with a diagnostic like any other bad-timestamp row,
and processing completes normally. -/
theorem c7_counterexample :
    process_csv_input [[strToB "not-a-date"]] =
      ⟨[], [⟨.valueError (strToU "not-a-date"), [strToB "not-a-date"]⟩], none⟩ := by
  decide

/-- Do the duration fields of a short sanitized row (fields 4 and 5, when
present) parse and their sum fit in range, so that no duration exception
fires before a missing-field IndexError? -/
def noDurCrash (u : List UStr) : Bool :=
  match u.get? 4 with
  | none => true
  | some f4 =>
    match duration_to_fps f4 with
    | .error _ => false
    | .ok a =>
      match u.get? 5 with
      | none => true
      | some f5 =>
        match duration_to_fps f5 with
        | .error _ => false
        | .ok b =>
          match tdAdd a b with
          | .error _ => false
          | .ok _ => true

/-- Claim C7 amended: an input record with fewer than 8 fields terminates
the pipeline with an uncaught IndexError only when the missing field is
actually reached: always for an empty record (the header check reads field
0), and for a non-header record whose timestamp parses, when no duration
exception fires first (a present malformed duration raises its own
uncaught error instead).  Records with fewer than 8 fields whose first
field is "Timestamp" are passed through, and those whose timestamp fails to
parse are dropped with a diagnostic; neither terminates the run. -/
theorem c7_amended_short_row_crash :
    (∀ rest : List (List ByteStr),
      process_csv_input ([] :: rest) = ⟨[], [], some .indexError⟩) ∧
    (∀ (row : List ByteStr) (rest : List (List ByteStr)) (u : List UStr)
       (f0 ts : UStr),
      sanitize_unicode row = .ok u → u.get? 0 = some f0 → ¬f0 = strToU "Timestamp" →
      iso_est_date f0 = .ok ts → u.length < 8 → noDurCrash u = true →
      process_csv_input (row :: rest) = ⟨[], [], some .indexError⟩) := by
  constructor
  · intro rest
    exact process_cons_crash [] rest .indexError rfl
  · intro row rest u f0 ts h1 h2 h3 h4 hlen hdur
    have hstep : stepRow row = .crash .indexError := by
      rcases u with _ | ⟨g0, _ | ⟨g1, _ | ⟨g2, _ | ⟨g3, _ | ⟨g4, _ | ⟨g5, _ | ⟨g6, t7⟩⟩⟩⟩⟩⟩⟩
      · simp at h2
      · obtain rfl : g0 = f0 := by simpa using h2
        unfold stepRow
        simp only [h1, List.get?_cons_zero, List.get?_cons_succ, List.get?_nil,
          if_neg h3, h4]
      · obtain rfl : g0 = f0 := by simpa using h2
        unfold stepRow
        simp only [h1, List.get?_cons_zero, List.get?_cons_succ, List.get?_nil,
          if_neg h3, h4]
      · obtain rfl : g0 = f0 := by simpa using h2
        unfold stepRow
        simp only [h1, List.get?_cons_zero, List.get?_cons_succ, List.get?_nil,
          if_neg h3, h4]
      · obtain rfl : g0 = f0 := by simpa using h2
        unfold stepRow
        simp only [h1, List.get?_cons_zero, List.get?_cons_succ, List.get?_nil,
          if_neg h3, h4]
      · -- length 5: field 4 present, field 5 missing
        obtain rfl : g0 = f0 := by simpa using h2
        unfold noDurCrash at hdur
        simp only [List.get?_cons_zero, List.get?_cons_succ, List.get?_nil] at hdur
        rcases hd4 : duration_to_fps g4 with e4 | a
        · simp only [hd4] at hdur
          simp at hdur
        · unfold stepRow
          simp only [h1, List.get?_cons_zero, List.get?_cons_succ, List.get?_nil,
            if_neg h3, h4, hd4]
      · -- length 6: both durations present, field 7 missing
        obtain rfl : g0 = f0 := by simpa using h2
        unfold noDurCrash at hdur
        simp only [List.get?_cons_zero, List.get?_cons_succ, List.get?_nil] at hdur
        rcases hd4 : duration_to_fps g4 with e4 | a
        · simp only [hd4] at hdur
          simp at hdur
        · simp only [hd4] at hdur
          rcases hd5 : duration_to_fps g5 with e5 | b
          · simp only [hd5] at hdur
            simp at hdur
          · simp only [hd5] at hdur
            rcases hadd : tdAdd a b with ea | sab
            · simp only [hadd] at hdur
              simp at hdur
            · unfold stepRow
              simp only [h1, List.get?_cons_zero, List.get?_cons_succ, List.get?_nil,
                if_neg h3, h4, hd4, hd5, hadd]
      · -- length 7 (the tail t7 must be empty since the length is below 8)
        rcases t7 with _ | ⟨g7, t8⟩
        · obtain rfl : g0 = f0 := by simpa using h2
          unfold noDurCrash at hdur
          simp only [List.get?_cons_zero, List.get?_cons_succ, List.get?_nil] at hdur
          rcases hd4 : duration_to_fps g4 with e4 | a
          · simp only [hd4] at hdur
            simp at hdur
          · simp only [hd4] at hdur
            rcases hd5 : duration_to_fps g5 with e5 | b
            · simp only [hd5] at hdur
              simp at hdur
            · simp only [hd5] at hdur
              rcases hadd : tdAdd a b with ea | sab
              · simp only [hadd] at hdur
                simp at hdur
              · unfold stepRow
                simp only [h1, List.get?_cons_zero, List.get?_cons_succ, List.get?_nil,
                  if_neg h3, h4, hd4, hd5, hadd]
        · simp only [List.length_cons] at hlen
          omega
    exact process_cons_crash row rest .indexError hstep

/-- Witness for the amended C7: the empty record crashes the run, and so
does a 4-field record with a valid timestamp (its missing FullName-adjacent
fields are reached). -/
theorem c7_amended_short_row_crash_witness :
    process_csv_input [[]] = ⟨[], [], some .indexError⟩ ∧
    process_csv_input
      [[strToB "4/1/11 11:00:00 AM", strToB "addr", strToB "1", strToB "name"]] =
      ⟨[], [], some .indexError⟩ :=
  ⟨c7_amended_short_row_crash.1 [],
   c7_amended_short_row_crash.2
     [strToB "4/1/11 11:00:00 AM", strToB "addr", strToB "1", strToB "name"] []
     [strToU "4/1/11 11:00:00 AM", strToU "addr", strToU "1", strToU "name"]
     (strToU "4/1/11 11:00:00 AM") (strToU "2011-04-01T14:00:00-04:00")
     (by decide) (by decide) (by decide) (by decide) (by decide) (by decide)⟩
